import Mathlib

/-!
Shallow embedding of the claude-gitlab-utilities repository core:
the batch log fetcher (`batch_log_fetcher.py`), the single-job log filter
(`get_logs.py`), and the pipeline watch/diff engine (`monitor_status.py`).

Log text is modelled as `List Char`; a Python split on newlines becomes
`splitOnNl`, a newline join becomes `joinNl`.  Regular expressions are modelled
by the `Pattern` type: a syntactically valid pattern is restricted to a
literal (`Pattern.lit`, matching as a substring, the shape every claim
exercises), and `Pattern.bad` stands for a pattern whose compilation raises
`re.error`.  Python exceptions are modelled with `Except`.  The thread pool's
`as_completed` order is modelled by an explicit completion-order parameter
(a permutation of the input indices), since the code collects results in
completion order.
-/

namespace GitlabUtil

/-- Log text / strings, modelled as lists of characters. -/
abbrev Str := List Char

/-- Python newline split: `splitOnNl []` is `[[]]`, matching CPython where
splitting an empty string on a newline yields one empty piece. -/
def splitOnNl : Str → List Str
  | [] => [[]]
  | c :: t =>
    match splitOnNl t with
    | [] => [[c]]
    | h :: r => if c = '\n' then [] :: h :: r else (c :: h) :: r

/-- Python newline join of a line list. -/
def joinNl : List Str → Str
  | [] => []
  | [l] => l
  | l :: ls => l ++ '\n' :: joinNl ls

/-- A regular expression as supplied by the caller: either a (valid) literal
pattern, or a syntactically invalid pattern whose compilation raises
`re.error` with the given message. -/
inductive Pattern where
  | lit (p : Str) : Pattern
  | bad (msg : Str) : Pattern
deriving DecidableEq

/-- Substring test: does `p` occur (contiguously) anywhere in `s`? -/
def substrSearch (p : Str) : Str → Bool
  | [] => p.isPrefixOf []
  | c :: t => p.isPrefixOf (c :: t) || substrSearch p t

/-- Python `re.search(p, line, flags)` for a literal pattern `p`:
substring search, lowercasing both sides when `re.IGNORECASE` is set. -/
def litSearch (ignoreCase : Bool) (p line : Str) : Bool :=
  if ignoreCase then substrSearch (p.map Char.toLower) (line.map Char.toLower)
  else substrSearch p line

/-- Helper for `findallCount`: scans left to right counting non-overlapping
occurrences, consuming the matched text after each hit, exactly as
`re.findall` does for a literal pattern.  `fuel` only forces termination;
any `fuel ≥ s.length` computes the scan to completion. -/
def findallCountAux : Nat → Str → Str → Nat
  | 0, _, _ => 0
  | fuel + 1, p, s =>
    match s with
    | [] => 0
    | c :: t =>
      if p.isPrefixOf (c :: t) then 1 + findallCountAux fuel p ((c :: t).drop p.length)
      else findallCountAux fuel p t

/-- Number of matches `re.findall(p, s)` reports for a literal pattern `p`
(non-overlapping, left to right; an empty pattern matches at every
position, giving `s.length + 1`). -/
def findallCount (p s : Str) : Nat :=
  if p = [] then s.length + 1 else findallCountAux s.length p s

/-- Python `re.findall` count with the `re.IGNORECASE` modifier applied. -/
def litFindallCount (ignoreCase : Bool) (p s : Str) : Nat :=
  if ignoreCase then findallCount (p.map Char.toLower) (s.map Char.toLower)
  else findallCount p s

/-- The filters dictionary accepted by the batch fetcher
(`tail`, `grep`, `ignore_case`, `context`).  Python treats `tail = 0` and a
missing `tail` identically (both falsy), so `tail` is a plain `Nat`. -/
structure Filters where
  tail : Nat := 0
  grep : Option Pattern := none
  ignore_case : Bool := false
  context : Nat := 0
deriving DecidableEq

/-- Membership test for the context window construction in
`BatchLogFetcher._apply_filters`: index `j` lies in
`range(max(0, i - context), min(len(lines), i + context + 1))` for some
matching line index `i`. -/
def keepIdx (pred : Str → Bool) (context : Nat) (lines : List Str) (j : Nat) : Bool :=
  (List.range lines.length).any fun i =>
    pred (lines.getD i []) && decide (i - context ≤ j) &&
      decide (j < i + context + 1) && decide (j < lines.length)

/-- The `context > 0` branch of the grep filter: the union of the context
windows around every matching line, deduplicated and emitted in ascending
index order (`lines = [lines[i] for i in sorted(matching_indices)]`). -/
def contextFilter (pred : Str → Bool) (context : Nat) (lines : List Str) : List Str :=
  ((List.range lines.length).filter (keepIdx pred context lines)).map
    fun i => lines.getD i []

/-- Lines retained by the grep step of `BatchLogFetcher._apply_filters`:
with a positive context radius, every line within `context` lines of a
match; otherwise just the matching lines. -/
def grepKeep (pred : Str → Bool) (context : Nat) (lines : List Str) : List Str :=
  if context > 0 then contextFilter pred context lines else lines.filter pred

/-- The grep section of `BatchLogFetcher._apply_filters`.  A syntactically
invalid pattern raises `re.error` at the first `re.search` call (the line
list is never empty there, since the log text was non-empty). -/
def grepStep (ignoreCase : Bool) (pat : Pattern) (context : Nat)
    (lines : List Str) : Except Str (List Str) :=
  match pat with
  | .bad msg => .error msg
  | .lit p => .ok (grepKeep (litSearch ignoreCase p) context lines)

/-- The line-level body of `BatchLogFetcher._apply_filters`: tail first
(`lines[-tail:]`, a no-op when `tail` is falsy), then the grep filter. -/
def filterLines (f : Filters) (lines : List Str) : Except Str (List Str) :=
  let lines := if f.tail ≠ 0 then lines.drop (lines.length - f.tail) else lines
  match f.grep with
  | none => .ok lines
  | some pat => grepStep f.ignore_case pat f.context lines

/-- Model of `BatchLogFetcher._apply_filters`: empty text is returned untouched
(before any regex is evaluated); otherwise the text is split into lines,
filtered, and re-joined. -/
def applyFilters (f : Filters) (logs : Str) : Except Str Str :=
  if logs = [] then .ok logs
  else (filterLines f (splitOnNl logs)).map joinNl

/-- A job descriptor as listed by the Job Source (`pipeline.jobs.list`). -/
structure Job where
  id : Nat
  name : Str
  status : Str
  stage : Str
  duration : Option Nat := none
deriving DecidableEq

/-- The per-job result dictionary built by `BatchLogFetcher.fetch_single_log`.
Byte sizes are modelled as character counts. -/
structure LogFetchResult where
  job_id : Nat
  job_name : Str
  status : Str
  stage : Str
  duration : Option Nat
  logs : Option Str
  log_lines : Nat
  log_size_bytes : Nat
  error : Option Str
  error_matches : Nat
deriving DecidableEq

/-- The initial result dictionary of `fetch_single_log`, before the `try`
block runs. -/
def initResult (job : Job) : LogFetchResult :=
  { job_id := job.id
    job_name := job.name
    status := job.status
    stage := job.stage
    duration := job.duration
    logs := none
    log_lines := 0
    log_size_bytes := 0
    error := none
    error_matches := 0 }

/-- Step `logs = self._apply_filters(logs, filters)` guarded by `if filters:`. -/
def filteredOf (filters : Option Filters) (rawLogs : Str) : Except Str Str :=
  match filters with
  | none => .ok rawLogs
  | some f => applyFilters f rawLogs

/-- The match-counting tail of `fetch_single_log`
(guarded by `if filters and filters.get(grep)`): `re.findall` runs on the already
filtered text; with an invalid pattern it raises, landing in the `except`
arm after `result["logs"]` has been assigned. -/
def countStep (filters : Option Filters) (r : LogFetchResult) (logs : Str) :
    LogFetchResult :=
  match filters with
  | none => r
  | some f =>
    match f.grep with
    | none => r
    | some (.lit p) => { r with error_matches := litFindallCount f.ignore_case p logs }
    | some (.bad msg) => { r with error := some msg }

/-- Model of `BatchLogFetcher.fetch_single_log`.  The network read
(the decoded `full_job.trace()`) is supplied as `traceResult`; any raised
exception is captured into `error`, leaving the fields assigned so far. -/
def fetch_single_log (traceResult : Except Str Str) (job : Job)
    (filters : Option Filters) : LogFetchResult :=
  match traceResult with
  | .error e => { initResult job with error := some e }
  | .ok rawLogs =>
    match filteredOf filters rawLogs with
    | .error e => { initResult job with error := some e }
    | .ok logs =>
      let r1 := { initResult job with
        logs := some logs
        log_lines := if logs ≠ [] then (splitOnNl logs).length else 0
        log_size_bytes := if logs ≠ [] then logs.length else 0 }
      countStep filters r1 logs

/-- The statistics dictionary of a batch run.  The wall-clock timestamp
fields are omitted: no claim concerns them. -/
structure BatchStats where
  total_jobs : Nat
  jobs_processed : Nat := 0
  jobs_skipped : Nat := 0
  jobs_failed : Nat := 0
  total_log_size_bytes : Nat := 0
  total_lines : Nat := 0
deriving DecidableEq

/-- The results dictionary returned by `fetch_logs_batch`. -/
structure BatchResult where
  jobs : List LogFetchResult
  statistics : BatchStats
deriving DecidableEq

/-- One iteration of the `for result in job_results:` aggregation loop in
`fetch_logs_batch`. -/
def processOne (skipEmpty : Bool) (acc : BatchResult) (r : LogFetchResult) :
    BatchResult :=
  if skipEmpty && r.logs.isNone then
    { acc with statistics :=
      { acc.statistics with jobs_skipped := acc.statistics.jobs_skipped + 1 } }
  else
    let st := acc.statistics
    let st := if r.error.isSome then { st with jobs_failed := st.jobs_failed + 1 } else st
    { jobs := acc.jobs ++ [r]
      statistics :=
        { st with
          jobs_processed := st.jobs_processed + 1
          total_log_size_bytes := st.total_log_size_bytes + r.log_size_bytes
          total_lines := st.total_lines + r.log_lines } }

/-- The whole aggregation loop of `fetch_logs_batch`. -/
def processResults (skipEmpty : Bool) : List LogFetchResult → BatchResult → BatchResult
  | [], acc => acc
  | r :: rest, acc => processResults skipEmpty rest (processOne skipEmpty acc r)

/-- The `job_results` list of `fetch_logs_batch`: each input job is fetched
(its trace outcome is paired with it), and `as_completed` yields the results
in an unspecified completion order, modelled by the index list `order` (a
permutation of `range inputs.length` for a real scheduler run). -/
def batchResultsList (inputs : List (Job × Except Str Str))
    (filters : Option Filters) (order : List Nat) : List LogFetchResult :=
  order.filterMap fun i =>
    (inputs.map fun x => fetch_single_log x.2 x.1 filters)[i]?

/-- Model of `BatchLogFetcher.fetch_logs_batch`, with the completion
order made explicit.  The progress-printing closure has no effect on the
returned value and is not modelled. -/
def fetch_logs_batch (inputs : List (Job × Except Str Str))
    (filters : Option Filters) (skipEmpty : Bool) (order : List Nat) :
    BatchResult :=
  processResults skipEmpty (batchResultsList inputs filters order)
    { jobs := [], statistics := { total_jobs := inputs.length } }

/-- Model of `filter_logs` from `get_logs.py` (single-job mode): compiles the pattern
up front, warns and returns the text unchanged on `re.error`, and otherwise
always uses the context-window construction (`context = 0` keeps exactly the
matching lines). -/
def filter_logs (logs : Str) (pattern : Option Pattern) (ignoreCase : Bool)
    (context : Nat) : Str :=
  match pattern with
  | none => logs
  | some (.bad _) => logs
  | some (.lit p) =>
    joinNl (contextFilter (litSearch ignoreCase p) context (splitOnNl logs))

/-- Python `\w` on ASCII input: letters, digits and underscore. -/
def isWordChar (c : Char) : Bool := c.isAlphanum || c = '_'

/-- First substitution of `sanitize_filename`, a `re.sub` with the
negated class of word characters, hyphen and dot: any character outside
that class becomes a hyphen. -/
def hyphenizeSpecials (name : Str) : Str :=
  name.map fun c => if isWordChar c || c = '-' || c = '.' then c else '-'

/-- Second substitution of `sanitize_filename`, a `re.sub` replacing each
run of hyphens with a single hyphen. -/
def collapseHyphens : Str → Str
  | [] => []
  | [c] => [c]
  | c :: d :: t =>
    if c = '-' && d = '-' then collapseHyphens (d :: t)
    else c :: collapseHyphens (d :: t)

/-- Python strip of the hyphen character: drop leading and trailing
hyphens. -/
def stripHyphens (s : Str) : Str :=
  (((s.dropWhile fun c => c = '-').reverse.dropWhile fun c => c = '-')).reverse

/-- Model of `BatchLogFetcher.sanitize_filename`. -/
def sanitize_filename (name : Str) : Str :=
  stripHyphens (collapseHyphens (hyphenizeSpecials name))

/-- The per-job log file name `f"job-{job_id}-{job_name}.log"` built in
`BatchLogFetcher.save_logs_to_files` (with `job_name` already sanitized). -/
def logFilename (jobId : Nat) (jobName : Str) : Str :=
  "job-".toList ++ Nat.toDigits 10 jobId ++ "-".toList ++
    sanitize_filename jobName ++ ".log".toList

/-- Terminal status list from `is_terminal_status` in `monitor_status.py`. -/
def terminalStatuses : List Str :=
  ["success".toList, "failed".toList, "canceled".toList, "skipped".toList]

/-- Model of `is_terminal_status`: membership in the terminal status list. -/
def is_terminal_status (status : Str) : Bool :=
  terminalStatuses.contains status

/-- Python `fnmatch.fnmatch(name, pattern)` for glob patterns built from literal
characters, `?` and `*` (the shapes the scripts use, e.g. `deploy-*`).
`fuel` only forces termination; `p.length + s.length` always suffices. -/
def globMatchAux : Nat → Str → Str → Bool
  | 0, _, _ => false
  | fuel + 1, p, s =>
    match p, s with
    | [], [] => true
    | [], _ :: _ => false
    | '*' :: pr, [] => globMatchAux fuel pr []
    | '*' :: pr, c :: sr =>
      globMatchAux fuel pr (c :: sr) || globMatchAux fuel ('*' :: pr) sr
    | _ :: _, [] => false
    | pc :: pr, c :: sr => (pc == '?' || pc == c) && globMatchAux fuel pr sr

/-- Glob match with enough fuel to run to completion. -/
def globMatch (p s : Str) : Bool :=
  globMatchAux (p.length + s.length + 1) p s

/-- Model of `PipelineAnalyzer.find_jobs_by_pattern`: filter the full job list by a
glob-style name match. -/
def find_jobs_by_pattern (allJobs : List Job) (pattern : Str) : List Job :=
  allJobs.filter fun job => globMatch pattern job.name

/-- An entry of the `terminal_jobs` / `non_terminal_jobs` lists built by
`check_pattern_completion` (the id, name and status fields). -/
structure JobRef where
  id : Nat
  name : Str
  status : Str
deriving DecidableEq

/-- The stats dictionary returned by `check_pattern_completion`. -/
structure PatternStats where
  total : Nat
  completed : Nat
  terminal_jobs : List JobRef
  non_terminal_jobs : List JobRef
  error : Option Str := none
deriving DecidableEq

/-- The no-match marker string (`no_matches`). -/
def noMatchesMsg : Str := "no_matches".toList

/-- Model of `check_pattern_completion` from `monitor_status.py`, with the job list
already fetched (its only use of the network is `find_jobs_by_pattern`). -/
def check_pattern_completion (allJobs : List Job) (pattern : Str) :
    Bool × PatternStats :=
  let matching := find_jobs_by_pattern allJobs pattern
  if matching = [] then
    (false,
     { total := 0
       completed := 0
       terminal_jobs := []
       non_terminal_jobs := []
       error := some noMatchesMsg })
  else
    let terminal := (matching.filter fun j => is_terminal_status j.status).map
      fun j => JobRef.mk j.id j.name j.status
    let nonTerminal := (matching.filter fun j => !is_terminal_status j.status).map
      fun j => JobRef.mk j.id j.name j.status
    (decide (terminal.length = matching.length),
     { total := matching.length
       completed := terminal.length
       terminal_jobs := terminal
       non_terminal_jobs := nonTerminal })

/-- One entry of the previous-snapshot dict built by `monitor_pipeline`
(per job id, its name and status). -/
structure SnapEntry where
  name : Str
  status : Str
deriving DecidableEq

/-- A JobSnapshot: association of job id to name and status. -/
abbrev Snapshot := List (Nat × SnapEntry)

/-- Snapshot construction of `monitor_pipeline`: map each listed job id to
its current name and status. -/
def snapshotOf (allJobs : List Job) : Snapshot :=
  allJobs.map fun j => (j.id, SnapEntry.mk j.name j.status)

/-- A transition record appended to `changed_jobs` in `monitor_pipeline`. -/
structure JobChange where
  job : Job
  prev_status : Str
  current_status : Str
deriving DecidableEq

/-- Loop body of the `changed_jobs` computation in `monitor_pipeline`:
`if job.id in previous_jobs` and the recorded status differs, this job
produces a transition record. -/
def changeOf (previousJobs : Snapshot) (job : Job) : Option JobChange :=
  match previousJobs.lookup job.id with
  | none => none
  | some prev =>
    if prev.status ≠ job.status then
      some { job := job, prev_status := prev.status, current_status := job.status }
    else none

/-- The `changed_jobs` computation of `monitor_pipeline`: for each current
job whose id is a key of the previous snapshot and whose status differs from
the recorded one, emit a transition record. -/
def detectChangedJobs (previousJobs : Snapshot) (allJobs : List Job) :
    List JobChange :=
  allJobs.filterMap (changeOf previousJobs)

/-- How a pattern-scoped watch run ends. -/
inductive WatchOutcome where
  | noMatches : WatchOutcome
  | allComplete : PatternStats → WatchOutcome
  | stillPolling : WatchOutcome
deriving DecidableEq

/-- The termination-relevant state machine of the pattern-scoped watch loop
in `main` (`monitor_status.py`): each tick observes the current full job
list, re-evaluates `check_pattern_completion`, and either increments the
consecutive no-match counter (breaking at 5), stops because every matching
job is terminal, or resets the counter and keeps polling.  `ticks` is the
stream of per-tick job lists; exhausting it means the loop is still
polling. -/
def watchLoop (pattern : Str) : List (List Job) → Nat → WatchOutcome
  | [], _ => .stillPolling
  | tickJobs :: rest, noMatchCount =>
    let r := check_pattern_completion tickJobs pattern
    if r.2.error = some noMatchesMsg then
      if noMatchCount + 1 ≥ 5 then .noMatches
      else watchLoop pattern rest (noMatchCount + 1)
    else if r.1 then .allComplete r.2
    else watchLoop pattern rest 0

/-- A sample job used by concrete witnesses and counterexamples. -/
def sampleJob : Job :=
  { id := 1, name := "alpha".toList, status := "success".toList, stage := "build".toList }

/-- A second sample job with a distinct id. -/
def sampleJob2 : Job :=
  { id := 2, name := "beta".toList, status := "failed".toList, stage := "test".toList }

/-- The spec's pattern-completion example: jobs matching `deploy-*` are
`{deploy-a: success, deploy-b: failed}` and no other job matches. -/
def deploySample : List Job :=
  [{ id := 1, name := "deploy-a".toList, status := "success".toList,
     stage := "deploy".toList },
   { id := 2, name := "deploy-b".toList, status := "failed".toList,
     stage := "deploy".toList },
   { id := 3, name := "build".toList, status := "running".toList,
     stage := "build".toList }]

/-- A non-terminal job whose name matches the sample watch pattern `x*`. -/
def sampleRunningJob : Job :=
  { id := 7, name := "x1".toList, status := "running".toList,
    stage := "deploy".toList }

/-- The skip check of the aggregation loop
(`if skip_empty and result["logs"] is None`). -/
def skipCheck (se : Bool) (r : LogFetchResult) : Bool := se && r.logs.isNone

/-- A result is kept in the batch output iff it does not hit the skip check. -/
def keptResult (se : Bool) (r : LogFetchResult) : Bool := !(skipCheck se r)

/-- A kept result is counted under `jobs_failed` iff its `error` is set. -/
def failedResult (se : Bool) (r : LogFetchResult) : Bool :=
  keptResult se r && r.error.isSome

section BatchLemmas

/-- Jobs collected by the aggregation loop: the accumulator's jobs followed
by every result that passes the skip check, in traversal order. -/
theorem processResults_jobs (se : Bool) :
    ∀ (rs : List LogFetchResult) (acc : BatchResult),
      (processResults se rs acc).jobs = acc.jobs ++ rs.filter (keptResult se)
  | [], acc => by simp [processResults]
  | r :: rs, acc => by
    have ih := processResults_jobs se rs (processOne se acc r)
    show (processResults se rs (processOne se acc r)).jobs = _
    rw [ih, List.filter_cons]
    by_cases h : (se && r.logs.isNone) = true
    · rw [if_neg (by simp [keptResult, skipCheck, h])]
      simp only [processOne, h, if_true]
    · rw [if_pos (by simp [keptResult, skipCheck, h])]
      simp only [processOne, h, if_false]
      simp [h]

/-- The skip counter counts exactly the results hitting the skip check. -/
theorem processResults_skipped (se : Bool) :
    ∀ (rs : List LogFetchResult) (acc : BatchResult),
      (processResults se rs acc).statistics.jobs_skipped
        = acc.statistics.jobs_skipped + (rs.filter (skipCheck se)).length
  | [], acc => by simp [processResults]
  | r :: rs, acc => by
    have ih := processResults_skipped se rs (processOne se acc r)
    show (processResults se rs (processOne se acc r)).statistics.jobs_skipped = _
    rw [ih, List.filter_cons]
    by_cases h : (se && r.logs.isNone) = true
    · rw [if_pos (by simp [skipCheck, h])]
      simp only [processOne, h, if_true, List.length_cons]
      omega
    · rw [if_neg (by simp [skipCheck, h])]
      simp only [processOne, h, if_false]
      by_cases he : r.error.isSome = true <;> simp [h, he]

/-- The processed counter counts exactly the results passing the skip check. -/
theorem processResults_processed (se : Bool) :
    ∀ (rs : List LogFetchResult) (acc : BatchResult),
      (processResults se rs acc).statistics.jobs_processed
        = acc.statistics.jobs_processed + (rs.filter (keptResult se)).length
  | [], acc => by simp [processResults]
  | r :: rs, acc => by
    have ih := processResults_processed se rs (processOne se acc r)
    show (processResults se rs (processOne se acc r)).statistics.jobs_processed = _
    rw [ih, List.filter_cons]
    by_cases h : (se && r.logs.isNone) = true
    · rw [if_neg (by simp [keptResult, skipCheck, h])]
      simp only [processOne, h, if_true]
    · rw [if_pos (by simp [keptResult, skipCheck, h])]
      simp only [processOne, h, if_false, List.length_cons]
      by_cases he : r.error.isSome = true <;> simp [h, he] <;> omega

/-- The failed counter counts exactly the kept results that carry an error. -/
theorem processResults_failed (se : Bool) :
    ∀ (rs : List LogFetchResult) (acc : BatchResult),
      (processResults se rs acc).statistics.jobs_failed
        = acc.statistics.jobs_failed + (rs.filter (failedResult se)).length
  | [], acc => by simp [processResults]
  | r :: rs, acc => by
    have ih := processResults_failed se rs (processOne se acc r)
    show (processResults se rs (processOne se acc r)).statistics.jobs_failed = _
    rw [ih, List.filter_cons]
    by_cases h : (se && r.logs.isNone) = true
    · rw [if_neg (by simp [failedResult, keptResult, skipCheck, h])]
      simp only [processOne, h, if_true]
    · by_cases he : r.error.isSome = true
      · rw [if_pos (by simp [failedResult, keptResult, skipCheck, h, he])]
        simp only [processOne, h, if_false, List.length_cons]
        simp [h, he]
        omega
      · rw [if_neg (by simp [failedResult, keptResult, skipCheck, h, he])]
        simp only [processOne, h, if_false]
        simp [h, he]

/-- The aggregation loop never touches `total_jobs`. -/
theorem processResults_total (se : Bool) :
    ∀ (rs : List LogFetchResult) (acc : BatchResult),
      (processResults se rs acc).statistics.total_jobs
        = acc.statistics.total_jobs
  | [], _ => by simp [processResults]
  | r :: rs, acc => by
    have ih := processResults_total se rs (processOne se acc r)
    show (processResults se rs (processOne se acc r)).statistics.total_jobs = _
    rw [ih]
    by_cases h : (se && r.logs.isNone) = true
    · simp only [processOne, h, if_true]
    · simp only [processOne, h, if_false]
      by_cases he : r.error.isSome = true <;> simp [h, he]

/-- With a completion order drawn from the valid indices, the collected
`job_results` list has one entry per submitted future. -/
theorem batchResultsList_length (inputs : List (Job × Except Str Str))
    (filters : Option Filters) :
    ∀ order : List Nat, (∀ i ∈ order, i < inputs.length) →
      (batchResultsList inputs filters order).length = order.length
  | [], _ => by simp [batchResultsList]
  | i :: order, h => by
    have hi : i < (inputs.map fun x => fetch_single_log x.2 x.1 filters).length := by
      simpa using h i (List.mem_cons_self i order)
    have ih := batchResultsList_length inputs filters order
      (fun j hj => h j (List.mem_cons_of_mem _ hj))
    simp only [batchResultsList, List.filterMap_cons] at ih ⊢
    rw [List.getElem?_eq_getElem hi]
    simp only [List.length_cons, ih]

/-- Kept results are exactly those with text split (with `skip_empty` on). -/
theorem keptResult_true_eq (r : LogFetchResult) :
    keptResult true r = r.logs.isSome := by
  cases h : r.logs <;> simp [keptResult, skipCheck, h]

/-- The skip check (with `skip_empty` on) fires exactly on absent text. -/
theorem skipCheck_true_eq (r : LogFetchResult) :
    skipCheck true r = r.logs.isNone := by
  simp [skipCheck]

/-- With `skip_empty` on, failed results are those with text and an error. -/
theorem failedResult_true_eq (r : LogFetchResult) :
    failedResult true r = (r.logs.isSome && r.error.isSome) := by
  rw [failedResult, keptResult_true_eq]

/-- A kept and skipped split of any result list covers it exactly once. -/
theorem kept_skip_length_split (se : Bool) :
    ∀ l : List LogFetchResult,
      (l.filter (keptResult se)).length + (l.filter (skipCheck se)).length
        = l.length
  | [] => by simp
  | r :: l => by
    have ih := kept_skip_length_split se l
    by_cases h : skipCheck se r = true <;>
      simp [List.filter_cons, keptResult, h, ih] <;> omega

end BatchLemmas

/-- Claim C1: with `skip_empty=true`, the claim says a job with empty or
absent `log_text` is skipped while a job whose fetch set `error` is counted
under `failed` and still reported.  Counterexample: a fetch that raises
leaves `logs = None` and so is counted under `skipped` (never `failed`) and
dropped from the reported jobs, while a job with empty-string logs is not
skipped at all: here the error job (id 1) vanishes with `failed = 0`, and
the empty-log job (id 2) is processed. -/
theorem c1_error_job_skipped_counterexample :
    (fetch_logs_batch [(sampleJob, .error "boom".toList), (sampleJob2, .ok [])]
        none true [0, 1]).statistics.jobs_failed = 0 ∧
    (fetch_logs_batch [(sampleJob, .error "boom".toList), (sampleJob2, .ok [])]
        none true [0, 1]).statistics.jobs_skipped = 1 ∧
    (fetch_logs_batch [(sampleJob, .error "boom".toList), (sampleJob2, .ok [])]
        none true [0, 1]).jobs.map (fun r => r.job_id) = [2] ∧
    (fetch_single_log (.error "boom".toList) sampleJob none).error
      = some "boom".toList := by
  decide

/-- Claim C1 (amended): with `skip_empty=true`, a result with absent
(`None`) `log_text` — including one whose fetch set `error` without
producing text — is removed from the result set and counted under
`skipped`; a result with present `log_text` (even empty) is kept, and is
counted under `failed` exactly when its `error` is set. -/
theorem c1_amended_skip_accounting (inputs : List (Job × Except Str Str))
    (filters : Option Filters) (order : List Nat) :
    (fetch_logs_batch inputs filters true order).jobs
        = (batchResultsList inputs filters order).filter
            (fun r => r.logs.isSome) ∧
    (fetch_logs_batch inputs filters true order).statistics.jobs_skipped
        = ((batchResultsList inputs filters order).filter
            (fun r => r.logs.isNone)).length ∧
    (fetch_logs_batch inputs filters true order).statistics.jobs_failed
        = ((batchResultsList inputs filters order).filter
            (fun r => r.logs.isSome && r.error.isSome)).length := by
  unfold fetch_logs_batch
  rw [processResults_jobs, processResults_skipped, processResults_failed]
  rw [List.filter_congr (fun r _ => keptResult_true_eq r),
      List.filter_congr (fun r _ => skipCheck_true_eq r),
      List.filter_congr (fun r _ => failedResult_true_eq r)]
  simp

/-- Claim C3: the claim says the job ordering of the BatchResult is
deterministic and derived from the input order, regardless of fetch
completion interleaving.  Counterexample: the loop consumes
`as_completed` results, so two valid completion orders of the same
two-job input yield the jobs in different orders ([1, 2] versus [2, 1]). -/
theorem c3_order_dependent_counterexample :
    (fetch_logs_batch [(sampleJob, .ok "x".toList), (sampleJob2, .ok "y".toList)]
        none true [0, 1]).jobs.map (fun r => r.job_id) = [1, 2] ∧
    (fetch_logs_batch [(sampleJob, .ok "x".toList), (sampleJob2, .ok "y".toList)]
        none true [1, 0]).jobs.map (fun r => r.job_id) = [2, 1] ∧
    List.Perm [0, 1] (List.range 2) ∧ List.Perm [1, 0] (List.range 2) := by
  decide

/-- Claim C3 (amended): the BatchResult's job ordering is derived from the
completion order of the fetches, not from the input order: it is exactly
the completion-ordered result list with the skipped entries filtered out. -/
theorem c3_amended_jobs_follow_completion_order
    (inputs : List (Job × Except Str Str)) (filters : Option Filters)
    (skipEmpty : Bool) (order : List Nat) :
    (fetch_logs_batch inputs filters skipEmpty order).jobs
      = (batchResultsList inputs filters order).filter (keptResult skipEmpty) := by
  unfold fetch_logs_batch
  rw [processResults_jobs]
  simp

/-- Claim C8: for every batch run over a genuine completion order (a
permutation of the input indices), `jobs_processed + jobs_skipped`
equals `total_jobs`. -/
theorem c8_processed_plus_skipped_eq_total
    (inputs : List (Job × Except Str Str)) (filters : Option Filters)
    (skipEmpty : Bool) (order : List Nat)
    (h : order.Perm (List.range inputs.length)) :
    (fetch_logs_batch inputs filters skipEmpty order).statistics.jobs_processed
      + (fetch_logs_batch inputs filters skipEmpty order).statistics.jobs_skipped
      = (fetch_logs_batch inputs filters skipEmpty order).statistics.total_jobs := by
  have hmem : ∀ i ∈ order, i < inputs.length := by
    intro i hi
    simpa using h.mem_iff.mp hi
  have hlen := batchResultsList_length inputs filters order hmem
  have hord : order.length = inputs.length := by simpa using h.length_eq
  unfold fetch_logs_batch
  rw [processResults_processed, processResults_skipped, processResults_total]
  simp only [Nat.zero_add]
  rw [kept_skip_length_split, hlen, hord]

/-- Claim C2: the claim says the reported match count is computed against
the pre-filter text.  Counterexample: `fetch_single_log` runs `re.findall`
on the already filtered text, so with `tail = 1` on a two-match log it
reports 1 where the pre-filter text holds 2 matches. -/
theorem c2_postfilter_count_counterexample :
    (fetch_single_log (.ok "ERROR\nERROR".toList) sampleJob
        (some { tail := 1, grep := some (.lit "ERROR".toList) })).error_matches
      = 1 ∧
    litFindallCount false "ERROR".toList "ERROR\nERROR".toList = 2 := by
  decide

/-- Claim C2 (amended): the reported match count equals the number of
pattern matches in the post-filter log text (the text stored in `logs`),
not the pre-filter text. -/
theorem c2_amended_match_count_postfilter (job : Job) (raw : Str)
    (f : Filters) (p : Str) (t : Str) (hg : f.grep = some (.lit p))
    (ht : applyFilters f raw = .ok t) :
    (fetch_single_log (.ok raw) job (some f)).logs = some t ∧
    (fetch_single_log (.ok raw) job (some f)).error_matches
      = litFindallCount f.ignore_case p t := by
  simp [fetch_single_log, filteredOf, ht, countStep, hg]

/-- Claim C2 amended witness: a concrete one-line log with one match. -/
theorem c2_amended_match_count_postfilter_witness :
    (fetch_single_log (.ok "E".toList) sampleJob
        (some { grep := some (.lit "E".toList) })).logs = some "E".toList ∧
    (fetch_single_log (.ok "E".toList) sampleJob
        (some { grep := some (.lit "E".toList) })).error_matches
      = litFindallCount false "E".toList "E".toList :=
  c2_amended_match_count_postfilter sampleJob "E".toList
    { grep := some (.lit "E".toList) } "E".toList "E".toList rfl rfl

/-- Claim C4: the claim says an invalid regex never crashes the fetch, is
reported once, and the fetch falls back to the unfiltered text.
Counterexample: in `BatchLogFetcher`, the `re.error` escapes
`_apply_filters` into the generic handler of `fetch_single_log`, so the
result is error-only: `logs` is absent, not the full text. -/
theorem c4_batch_invalid_regex_counterexample :
    (fetch_single_log (.ok "x".toList) sampleJob
        (some { grep := some (.bad "oops".toList) })).logs = none ∧
    (fetch_single_log (.ok "x".toList) sampleJob
        (some { grep := some (.bad "oops".toList) })).error
      = some "oops".toList := by
  decide

/-- Claim C4 (amended): only the single-job path (`filter_logs` in
`get_logs.py`) falls back to the unfiltered text on an invalid regex; the
batch fetcher instead captures the parse error as a per-job fetch error
with `logs` absent (for any non-empty raw text), without crashing. -/
theorem c4_amended_invalid_regex_behavior :
    (∀ (logs : Str) (ic : Bool) (c : Nat) (msg : Str),
        filter_logs logs (some (.bad msg)) ic c = logs) ∧
    (∀ (job : Job) (raw : Str) (f : Filters) (msg : Str),
        f.grep = some (.bad msg) → raw ≠ [] →
        (fetch_single_log (.ok raw) job (some f)).logs = none ∧
        (fetch_single_log (.ok raw) job (some f)).error = some msg) := by
  constructor
  · intro logs ic c msg
    rfl
  · intro job raw f msg hg hraw
    simp [fetch_single_log, filteredOf, applyFilters, hraw, filterLines, hg,
      grepStep, Except.map, initResult]

/-- Claim C4 amended witness: both failure-mode behaviours at concrete
inputs. -/
theorem c4_amended_invalid_regex_behavior_witness :
    filter_logs "a\nb".toList (some (.bad "paren".toList)) false 2
      = "a\nb".toList ∧
    ((fetch_single_log (.ok "xy".toList) sampleJob2
        (some { grep := some (.bad "paren".toList) })).logs = none ∧
     (fetch_single_log (.ok "xy".toList) sampleJob2
        (some { grep := some (.bad "paren".toList) })).error
       = some "paren".toList) :=
  ⟨c4_amended_invalid_regex_behavior.1 "a\nb".toList false 2 "paren".toList,
   c4_amended_invalid_regex_behavior.2 sampleJob2 "xy".toList
     { grep := some (.bad "paren".toList) } "paren".toList rfl
     (by decide)⟩

/-- Claim C8 witness: a concrete two-job batch run. -/
theorem c8_processed_plus_skipped_eq_total_witness :
    (fetch_logs_batch [(sampleJob, .ok "x".toList), (sampleJob2, .error "e".toList)]
        none true [1, 0]).statistics.jobs_processed
      + (fetch_logs_batch [(sampleJob, .ok "x".toList), (sampleJob2, .error "e".toList)]
        none true [1, 0]).statistics.jobs_skipped
      = (fetch_logs_batch [(sampleJob, .ok "x".toList), (sampleJob2, .error "e".toList)]
        none true [1, 0]).statistics.total_jobs :=
  c8_processed_plus_skipped_eq_total _ none true [1, 0] (by decide)

/-- With no job matching the pattern, `check_pattern_completion` returns the
distinguished no-match result. -/
theorem check_error_of_no_matches (allJobs : List Job) (pattern : Str)
    (h : find_jobs_by_pattern allJobs pattern = []) :
    check_pattern_completion allJobs pattern
      = (false,
         { total := 0, completed := 0, terminal_jobs := [],
           non_terminal_jobs := [], error := some noMatchesMsg }) := by
  simp [check_pattern_completion, h]

/-- With at least one matching job, the no-match marker is never set. -/
theorem check_error_none_of_matches (allJobs : List Job) (pattern : Str)
    (h : find_jobs_by_pattern allJobs pattern ≠ []) :
    (check_pattern_completion allJobs pattern).2.error = none := by
  simp [check_pattern_completion, h]

/-- Claim C5: `check_pattern_completion` reports `all_complete = true`
exactly when the matching job set is non-empty and every matching job's
status is terminal; `completed` counts the terminal matches and `total` all
matches, so `all_complete` forces `completed = total`.  In particular the
spec's `deploy-*` example reports `all_complete = true` with 2/2. -/
theorem c5_pattern_completion_iff (allJobs : List Job) (pattern : Str) :
    ((check_pattern_completion allJobs pattern).1 = true ↔
      (find_jobs_by_pattern allJobs pattern ≠ [] ∧
       ∀ j ∈ find_jobs_by_pattern allJobs pattern,
         is_terminal_status j.status = true)) ∧
    (check_pattern_completion allJobs pattern).2.completed
        = ((find_jobs_by_pattern allJobs pattern).filter
            fun j => is_terminal_status j.status).length ∧
    (check_pattern_completion allJobs pattern).2.total
        = (find_jobs_by_pattern allJobs pattern).length ∧
    (check_pattern_completion deploySample "deploy-*".toList).1 = true ∧
    (check_pattern_completion deploySample "deploy-*".toList).2.completed = 2 ∧
    (check_pattern_completion deploySample "deploy-*".toList).2.total = 2 := by
  refine ⟨?_, ?_, ?_, by decide, by decide, by decide⟩
  · by_cases hm : find_jobs_by_pattern allJobs pattern = []
    · simp [check_pattern_completion, hm]
    · simp [check_pattern_completion, hm, List.filter_length_eq_length]
  · by_cases hm : find_jobs_by_pattern allJobs pattern = [] <;>
      simp [check_pattern_completion, hm]
  · by_cases hm : find_jobs_by_pattern allJobs pattern = [] <;>
      simp [check_pattern_completion, hm]

/-- Claim C6: in pattern-scoped watch mode, five consecutive no-match ticks
terminate the loop with the distinct no-match outcome, and a tick that does
find matches (without completing) resets the consecutive no-match counter
to zero. -/
theorem c6_no_match_grace_window :
    (∀ (pattern : Str) (rest : List (List Job)) (t1 t2 t3 t4 t5 : List Job),
        find_jobs_by_pattern t1 pattern = [] →
        find_jobs_by_pattern t2 pattern = [] →
        find_jobs_by_pattern t3 pattern = [] →
        find_jobs_by_pattern t4 pattern = [] →
        find_jobs_by_pattern t5 pattern = [] →
        watchLoop pattern (t1 :: t2 :: t3 :: t4 :: t5 :: rest) 0
          = .noMatches) ∧
    (∀ (pattern : Str) (tickJobs : List Job) (rest : List (List Job)) (n : Nat),
        find_jobs_by_pattern tickJobs pattern ≠ [] →
        (check_pattern_completion tickJobs pattern).1 = false →
        watchLoop pattern (tickJobs :: rest) n = watchLoop pattern rest 0) := by
  constructor
  · intro pattern rest t1 t2 t3 t4 t5 h1 h2 h3 h4 h5
    rw [watchLoop, check_error_of_no_matches _ _ h1]
    rw [watchLoop, check_error_of_no_matches _ _ h2]
    rw [watchLoop, check_error_of_no_matches _ _ h3]
    rw [watchLoop, check_error_of_no_matches _ _ h4]
    rw [watchLoop, check_error_of_no_matches _ _ h5]
    simp
  · intro pattern tickJobs rest n hne hfalse
    have he := check_error_none_of_matches _ _ hne
    rw [watchLoop]
    simp [he, hfalse]

/-- Claim C6 witness: five empty ticks stop with the no-match outcome, and
a tick with a live matching job resets the counter. -/
theorem c6_no_match_grace_window_witness :
    watchLoop "x*".toList [[], [], [], [], []] 0 = .noMatches ∧
    watchLoop "x*".toList [[sampleRunningJob], []] 3
      = watchLoop "x*".toList [[]] 0 :=
  ⟨c6_no_match_grace_window.1 "x*".toList [] [] [] [] [] [] rfl rfl rfl rfl rfl,
   c6_no_match_grace_window.2 "x*".toList [sampleRunningJob] [[]] 3
     (by decide) (by decide)⟩

/-- One current job yields a transition record exactly when its id is a key
of the previous snapshot with a different recorded status. -/
theorem changeOf_eq_some (prev : Snapshot) (job : Job) (ch : JobChange) :
    changeOf prev job = some ch ↔
      ∃ e, prev.lookup job.id = some e ∧ e.status ≠ job.status ∧
        ch = { job := job, prev_status := e.status,
               current_status := job.status } := by
  cases h : prev.lookup job.id with
  | none => simp [changeOf, h]
  | some e =>
    by_cases hs : e.status = job.status
    · simp [changeOf, h, hs]
    · simp [changeOf, h, hs, eq_comm]

/-- Claim C7: the watch diff emits a transition record exactly for each
current job whose id is present in the previous snapshot with a different
status (recording previous and new status), and never for an id absent from
the previous snapshot; on the spec's example snapshots the transition list
is exactly the single `job1 : running → success` record. -/
theorem c7_watch_diff_exact :
    (detectChangedJobs
        [(1, { name := "job1".toList, status := "running".toList }),
         (2, { name := "job2".toList, status := "pending".toList })]
        [{ id := 1, name := "job1".toList, status := "success".toList,
           stage := "s".toList },
         { id := 2, name := "job2".toList, status := "pending".toList,
           stage := "s".toList }]
      = [{ job := { id := 1, name := "job1".toList,
                    status := "success".toList, stage := "s".toList },
           prev_status := "running".toList,
           current_status := "success".toList }]) ∧
    (∀ (prev : Snapshot) (cur : List Job) (ch : JobChange),
        ch ∈ detectChangedJobs prev cur ↔
          ∃ job ∈ cur, ∃ e, prev.lookup job.id = some e ∧
            e.status ≠ job.status ∧
            ch = { job := job, prev_status := e.status,
                   current_status := job.status }) := by
  constructor
  · decide
  · intro prev cur ch
    simp [detectChangedJobs, List.mem_filterMap, changeOf_eq_some]

/-- Widening the context radius keeps every index the narrower radius
kept. -/
theorem keepIdx_mono (pred : Str → Bool) (lines : List Str) {c1 c2 : Nat}
    (h : c1 ≤ c2) (j : Nat) (hj : keepIdx pred c1 lines j = true) :
    keepIdx pred c2 lines j = true := by
  rw [keepIdx, List.any_eq_true] at hj ⊢
  obtain ⟨i, hi, hcond⟩ := hj
  refine ⟨i, hi, ?_⟩
  simp only [Bool.and_eq_true, decide_eq_true_eq] at hcond ⊢
  obtain ⟨⟨⟨hpred, hle⟩, hlt⟩, hlen⟩ := hcond
  exact ⟨⟨⟨hpred, by omega⟩, by omega⟩, hlen⟩

/-- The context-window filter is monotone in the radius, as a sublist. -/
theorem contextFilter_mono (pred : Str → Bool) (lines : List Str)
    {c1 c2 : Nat} (h : c1 ≤ c2) :
    (contextFilter pred c1 lines).Sublist (contextFilter pred c2 lines) :=
  ((List.range lines.length).monotone_filter_right
      fun j hj => keepIdx_mono pred lines h j hj).map _

/-- A filter over a list is the same as selecting the positions whose
element satisfies the predicate. -/
theorem filter_eq_range_filter_map {α : Type} (p : α → Bool) (d : α) :
    ∀ l : List α,
      l.filter p
        = ((List.range l.length).filter fun i => p (l.getD i d)).map
            fun i => l.getD i d
  | [] => by simp
  | a :: l => by
    have ih := filter_eq_range_filter_map p d l
    simp only [List.length_cons, List.range_succ_eq_map, List.filter_cons,
      List.getD_cons_zero, List.filter_map, List.map_map, Function.comp_def,
      List.getD_cons_succ]
    by_cases hp : p a = true <;> simp [hp, ih]

/-- With radius zero the context-window construction keeps exactly the
matching lines, agreeing with the `else` branch of the grep filter. -/
theorem contextFilter_zero (pred : Str → Bool) (lines : List Str) :
    contextFilter pred 0 lines = lines.filter pred := by
  rw [contextFilter, filter_eq_range_filter_map pred [] lines]
  congr 1
  apply List.filter_congr
  intro j hj
  rw [List.mem_range] at hj
  by_cases hp : pred (lines.getD j []) = true
  · rw [hp, keepIdx, List.any_eq_true]
    refine ⟨j, List.mem_range.mpr hj, ?_⟩
    simp only [Bool.and_eq_true, decide_eq_true_eq]
    exact ⟨⟨⟨hp, by omega⟩, by omega⟩, hj⟩
  · simp only [Bool.not_eq_true] at hp
    rw [hp, keepIdx, Bool.eq_false_iff, Ne, List.any_eq_true]
    rintro ⟨i, hi, hcond⟩
    simp only [Bool.and_eq_true, decide_eq_true_eq] at hcond
    obtain ⟨⟨⟨hpi, hlt⟩, _⟩, _⟩ := hcond
    have hij : i = j := by omega
    subst hij
    rw [hp] at hpi
    exact Bool.false_ne_true hpi

/-- Core monotonicity of the grep step (covering the `context = 0` branch
as well). -/
theorem grepKeep_mono (pred : Str → Bool) (lines : List Str) {c1 c2 : Nat}
    (h : c1 ≤ c2) :
    (grepKeep pred c1 lines).Sublist (grepKeep pred c2 lines) := by
  rw [grepKeep, grepKeep]
  by_cases h1 : c1 > 0
  · rw [if_pos h1, if_pos (by omega : c2 > 0)]
    exact contextFilter_mono pred lines h
  · have h1z : c1 = 0 := by omega
    subst h1z
    rw [if_neg (by omega)]
    by_cases h2 : c2 > 0
    · rw [if_pos h2, ← contextFilter_zero pred lines]
      exact contextFilter_mono pred lines (by omega)
    · rw [if_neg h2]

/-- Claim C10: for every pattern (with either case-sensitivity mode), line
list and context radii `c1 ≤ c2`, the lines the grep filter retains with
radius `c1` form a sublist of those retained with radius `c2`: widening the
context never removes a retained line. -/
theorem c10_context_monotone (ic : Bool) (p : Str) (lines : List Str)
    (c1 c2 : Nat) (h : c1 ≤ c2) :
    (grepKeep (litSearch ic p) c1 lines).Sublist
      (grepKeep (litSearch ic p) c2 lines) :=
  grepKeep_mono (litSearch ic p) lines h

/-- Claim C10 witness: a concrete three-line log with radii 0 and 1. -/
theorem c10_context_monotone_witness :
    (grepKeep (litSearch false "E".toList) 0
        (splitOnNl "a\nE\nb".toList)).Sublist
      (grepKeep (litSearch false "E".toList) 1
        (splitOnNl "a\nE\nb".toList)) :=
  c10_context_monotone false "E".toList (splitOnNl "a\nE\nb".toList) 0 1
    (by decide)

/-- After collapsing, a non-empty input keeps its first character. -/
theorem collapse_head : ∀ (d : Char) (t : Str),
    (collapseHyphens (d :: t)).head? = some d
  | _, [] => rfl
  | d, e :: t => by
    have ih := collapse_head e t
    by_cases hd : d = '-' <;> by_cases he : e = '-'
    · subst hd
      subst he
      simpa [collapseHyphens] using ih
    all_goals simp [collapseHyphens, hd, he]

/-- The collapsed string never holds two adjacent hyphens. -/
theorem collapse_chain : ∀ s : Str,
    List.Chain' (fun a b => ¬(a = '-' ∧ b = '-')) (collapseHyphens s)
  | [] => by simp [collapseHyphens]
  | [c] => by simp [collapseHyphens]
  | c :: d :: t => by
    have ih := collapse_chain (d :: t)
    by_cases hc : c = '-' <;> by_cases hd : d = '-'
    · simpa [collapseHyphens, hc, hd] using ih
    all_goals
      rw [show collapseHyphens (c :: d :: t) = c :: collapseHyphens (d :: t)
            from by simp [collapseHyphens, hc, hd]]
      rw [List.chain'_cons']
      refine ⟨?_, ih⟩
      simp [collapse_head d t, hc, hd]

/-- Stripping outer hyphens preserves the no-adjacent-hyphens invariant. -/
theorem stripHyphens_chain (s : Str)
    (h : List.Chain' (fun a b => ¬(a = '-' ∧ b = '-')) s) :
    List.Chain' (fun a b => ¬(a = '-' ∧ b = '-')) (stripHyphens s) := by
  have flipRev : ∀ l : Str, List.Chain' (fun a b => ¬(a = '-' ∧ b = '-')) l →
      List.Chain' (fun a b => ¬(a = '-' ∧ b = '-')) l.reverse := by
    intro l hl
    exact List.chain'_reverse.mpr (hl.imp fun a b hab hc => hab ⟨hc.2, hc.1⟩)
  exact flipRev _ ((flipRev _ (h.suffix (List.dropWhile_suffix _))).suffix
    (List.dropWhile_suffix _))

/-- The head surviving a `dropWhile` fails the dropped predicate. -/
theorem dropWhile_head_not (p : Char → Bool) :
    ∀ (l : Str) (c : Char), (l.dropWhile p).head? = some c → p c = false
  | [], c => by simp
  | a :: l, c => by
    by_cases h : p a = true
    · rw [List.dropWhile_cons, if_pos h]
      exact dropWhile_head_not p l c
    · rw [List.dropWhile_cons, if_neg h]
      intro hc
      rw [List.head?_cons, Option.some_inj] at hc
      subst hc
      simpa using h

/-- A non-trivial `dropWhile` keeps the last element of the list. -/
theorem dropWhile_getLast (p : Char → Bool) :
    ∀ l : Str, l.dropWhile p ≠ [] →
      (l.dropWhile p).getLast? = l.getLast?
  | [], h => by simp at h
  | a :: l, h => by
    by_cases hp : p a = true
    · rw [List.dropWhile_cons, if_pos hp] at h ⊢
      rw [dropWhile_getLast p l h]
      cases l with
      | nil => simp at h
      | cons b t => rw [List.getLast?_cons_cons]
    · rw [List.dropWhile_cons, if_neg hp]

/-- The stripped string never starts with a hyphen. -/
theorem stripHyphens_head (s : Str) (c : Char)
    (h : (stripHyphens s).head? = some c) : c ≠ '-' := by
  rw [stripHyphens, List.head?_reverse] at h
  by_cases hne :
      ((s.dropWhile fun c => c = '-').reverse.dropWhile fun c => c = '-') = []
  · rw [hne] at h
    simp at h
  · rw [dropWhile_getLast _ _ hne, List.getLast?_reverse] at h
    have := dropWhile_head_not _ _ _ h
    simpa using this

/-- The stripped string never ends with a hyphen. -/
theorem stripHyphens_last (s : Str) (c : Char)
    (h : (stripHyphens s).getLast? = some c) : c ≠ '-' := by
  rw [stripHyphens, List.getLast?_reverse] at h
  have := dropWhile_head_not _ _ _ h
  simpa using this

/-- Collapsing introduces no new characters. -/
theorem collapse_subset : ∀ (s : Str) (c : Char),
    c ∈ collapseHyphens s → c ∈ s
  | [], c => by simp [collapseHyphens]
  | [a], c => by simp [collapseHyphens]
  | a :: b :: t, c => by
    intro h
    by_cases hab : a = '-' ∧ b = '-'
    · rw [show collapseHyphens (a :: b :: t) = collapseHyphens (b :: t) from by
          rw [collapseHyphens,
            if_pos (by simp only [Bool.and_eq_true, decide_eq_true_eq]
                       exact hab)]] at h
      exact List.mem_cons_of_mem a (collapse_subset (b :: t) c h)
    · rw [show collapseHyphens (a :: b :: t) = a :: collapseHyphens (b :: t)
          from by
          rw [collapseHyphens,
            if_neg (by simp only [Bool.and_eq_true, decide_eq_true_eq]
                       exact hab)]] at h
      rcases List.mem_cons.mp h with h | h
      · subst h
        exact List.mem_cons_self _ _
      · exact List.mem_cons_of_mem a (collapse_subset (b :: t) c h)

/-- Stripping introduces no new characters. -/
theorem stripHyphens_subset (s : Str) (c : Char)
    (h : c ∈ stripHyphens s) : c ∈ s := by
  rw [stripHyphens, List.mem_reverse] at h
  have h2 := (List.dropWhile_sublist _).subset h
  rw [List.mem_reverse] at h2
  exact (List.dropWhile_sublist _).subset h2

/-- Every character the first substitution emits is a word character, a
hyphen or a dot. -/
theorem hyphenize_chars (name : Str) (c : Char)
    (h : c ∈ hyphenizeSpecials name) :
    (isWordChar c || c = '-' || c = '.') = true := by
  rw [hyphenizeSpecials, List.mem_map] at h
  obtain ⟨a, _, ha⟩ := h
  by_cases hcond : (isWordChar a || a = '-' || a = '.') = true
  · rw [if_pos hcond] at ha
    subst ha
    exact hcond
  · rw [if_neg hcond] at ha
    subst ha
    simp

/-- Claim C9: the claim says every non-word character is collapsed into
single hyphens.  Counterexample: the substitution class is `[^\w\-\.]`, so
a dot — a non-word character — survives sanitization unchanged instead of
becoming a hyphen. -/
theorem c9_dot_preserved_counterexample :
    sanitize_filename "a.b".toList = "a.b".toList ∧
    isWordChar '.' = false ∧ '.' ≠ '-' := by
  decide

/-- Claim C9 (amended): sanitization collapses every character outside
word characters, hyphens and dots into hyphens, collapses hyphen runs (no
two adjacent hyphens survive) and strips leading/trailing hyphens — dots
are preserved, not hyphenated; the sanitized name is embedded in the
per-job log file name `job-<id>-<name>.log`. -/
theorem c9_amended_sanitize_properties (name : Str) :
    (¬ List.IsInfix ['-', '-'] (sanitize_filename name)) ∧
    (∀ c, (sanitize_filename name).head? = some c → c ≠ '-') ∧
    (∀ c, (sanitize_filename name).getLast? = some c → c ≠ '-') ∧
    (∀ c ∈ sanitize_filename name, (isWordChar c || c = '-' || c = '.') = true) ∧
    (∀ jobId : Nat, List.IsInfix (sanitize_filename name) (logFilename jobId name)) := by
  refine ⟨?_, ?_, ?_, ?_, ?_⟩
  · intro hinf
    have hch := stripHyphens_chain _ (collapse_chain (hyphenizeSpecials name))
    have h2 := hch.infix hinf
    rw [List.chain'_pair] at h2
    exact h2 ⟨rfl, rfl⟩
  · exact stripHyphens_head _
  · exact stripHyphens_last _
  · intro c hc
    exact hyphenize_chars name c
      (collapse_subset _ c (stripHyphens_subset _ c hc))
  · intro jobId
    exact ⟨"job-".toList ++ Nat.toDigits 10 jobId ++ "-".toList,
      ".log".toList, by simp [logFilename]⟩

end GitlabUtil
